import Mathlib

/-!
Verification of the write-transaction core of `skipdb` (`tokio-mwmr/src/write.rs`)
against its natural-language specification.

The development shallowly embeds `WriteTransaction` as a state record `Txn`
together with purely functional translations of its methods.  External
collaborators are embedded as follows:

* the storage engine (`AsyncDatabase`) is a record of functions `Database`
  (fingerprint, size estimation, batch limits, entry validation, point lookup
  outcome, batch-apply outcome);
* the pending-write buffer (`AsyncPendingManager`) is instantiated with a
  lawful concrete model: an insertion-ordered association list from keys to
  `EntryValue`s whose operations never fail;
* the timestamp oracle is modelled from the spec (its source is not part of
  the verified file); its conflict/timestamp decision is an abstract parameter.

Methods that can touch shared services return, besides their result and the
updated transaction, a list of `Event`s recording the interactions: lock
acquisition/release of the commit-serialization lock, the `new_commit_ts`
call, the storage `apply` call, `done_commit`, read-watermark release, and
storage point lookups.  Panics of the original code (`Option::unwrap` on a
taken buffer, the `assert_ne!(commit_ts, 0)`) are made explicit with
`PanicOr`.
-/

set_option autoImplicit false

namespace SkipDB

/-- Transaction-level error kind, as used by `write.rs`: `Discard` (operation
on a discarded transaction), `LargeTxn` (size/count limits exceeded),
`Conflict` (optimistic-concurrency failure at commit) and `Manager` (an error
of the pending-write buffer, with payload type `M`). -/
inductive TransactionError (M : Type) where
  | Discard
  | LargeTxn
  | Conflict
  | Manager (e : M)
  deriving DecidableEq, Repr

/-- Error type of the transaction operations (`Error<D, W>`): either a
transaction error or an opaque database (storage-engine) error of type
`D`. -/
inductive Error (D M : Type) where
  | Transaction (e : TransactionError M)
  | Database (e : D)
  deriving DecidableEq, Repr

/-- Payload of a logical mutation: an insertion of a key/value pair or the
removal of a key (`EntryData`). -/
inductive EntryData (K V : Type) where
  | Insert (key : K) (value : V)
  | Remove (key : K)
  deriving DecidableEq, Repr

/-- A logical mutation tagged with a version timestamp (`Entry`). -/
structure Entry (K V : Type) where
  data : EntryData K V
  version : Nat
  deriving DecidableEq, Repr

/-- Key of an `EntryData`. -/
def EntryData.key {K V : Type} : EntryData K V → K
  | .Insert k _ => k
  | .Remove k => k

/-- Key of an `Entry`. -/
def Entry.key {K V : Type} (e : Entry K V) : K :=
  e.data.key

/-- Value half of a split entry as stored in the pending-write buffer: the
optional value (`none` is a deletion marker) plus the version. -/
structure EntryValue (V : Type) where
  value : Option V
  version : Nat
  deriving DecidableEq, Repr

/-- Splits an entry into its key and its buffered `EntryValue`
(`Entry::split`). -/
def Entry.split {K V : Type} (e : Entry K V) : K × EntryValue V :=
  match e.data with
  | .Insert k v => (k, ⟨some v, e.version⟩)
  | .Remove k => (k, ⟨none, e.version⟩)

/-- Rebuilds an entry from a key and a buffered `EntryValue`
(`Entry::unsplit`). -/
def Entry.unsplit {K V : Type} (k : K) (ev : EntryValue V) : Entry K V :=
  { data :=
      match ev.value with
      | some v => .Insert k v
      | none => .Remove k
    version := ev.version }

/-- Concrete model of the pending-write buffer: an insertion-ordered
association list from keys to `EntryValue`s.  Its enumeration order is the
list order. -/
abbrev PendingMap (K V : Type) := List (K × EntryValue V)

/-- Point lookup in the pending-write buffer (`AsyncPendingManager::get`). -/
def pendingGet {K V : Type} [DecidableEq K] (pw : PendingMap K V) (k : K) :
    Option (EntryValue V) :=
  (pw.find? fun p => decide (p.1 = k)).map Prod.snd

/-- Remove-and-return of a buffered entry by key
(`AsyncPendingManager::remove_entry`): returns the removed pair, if any, and
the remaining buffer. -/
def pendingRemoveEntry {K V : Type} [DecidableEq K] :
    PendingMap K V → K → Option (K × EntryValue V) × PendingMap K V
  | [], _ => (none, [])
  | p :: rest, k =>
    if p.1 = k then (some p, rest)
    else
      let r := pendingRemoveEntry rest k
      (r.1, p :: r.2)

/-- Insertion into the pending-write buffer (`AsyncPendingManager::insert`):
replaces in place when the key is present, otherwise appends. -/
def pendingInsert {K V : Type} [DecidableEq K] (pw : PendingMap K V) (k : K)
    (v : EntryValue V) : PendingMap K V :=
  if (pw.find? fun p => decide (p.1 = k)).isSome then
    pw.map fun p => if p.1 = k then (k, v) else p
  else
    pw ++ [(k, v)]

/-- Insertion into the conflict-key set (model of `IndexSet::insert`):
membership-only semantics, duplicates collapse, insertion order kept. -/
def indexSetInsert (s : List Nat) (x : Nat) : List Nat :=
  if x ∈ s then s else s ++ [x]

/-- The storage engine interface consumed by the transaction core
(`AsyncDatabase`), embedded as a record of pure outcome functions:
key fingerprinting, per-entry size estimation, the configured batch limits,
entry validation, the outcome of a point lookup at a snapshot (a borrowed
value `Sum.inl` or an owned value `Sum.inr`), and the outcome of an atomic
batch application. -/
structure Database (K V D : Type) where
  fingerprint : K → Nat
  estimate_size : Entry K V → Nat
  max_batch_entries : Nat
  max_batch_size : Nat
  validate_entry : Entry K V → Except D Unit
  get_result : K → Nat → Except D (Option (V ⊕ V))
  apply_result : List (Entry K V) → Except D Unit

/-- Result of a transactional point lookup (`Item`): served from the pending
buffer (`Pending`, carrying the entry data and its buffered version), or from
storage as a borrowed or owned value. -/
inductive Item (K V : Type) where
  | Pending (data : EntryData K V) (version : Nat)
  | Borrowed (v : V)
  | Owned (v : V)
  deriving DecidableEq, Repr

/-- Abstract decision of the oracle for one commit attempt: declare a
conflict, or issue a commit timestamp.  The decision depends on global commit
history outside the verified file, so it is a parameter of the model. -/
inductive OracleDecision where
  | conflict
  | timestamp (ts : Nat)
  deriving DecidableEq, Repr

/-- Result of `Oracle::new_commit_ts` (`CreateCommitTimestampResult`): a
conflict carrying the caller's conflict keys and reads back, or a fresh
commit timestamp. -/
inductive CreateCommitTimestampResult where
  | Conflict (conflict_keys : Option (List Nat)) (reads : List Nat)
  | Timestamp (ts : Nat)
  deriving DecidableEq, Repr

/-- Modelled from the spec: the timestamp oracle's `new_commit_ts` (the
`Oracle` type itself is outside the verified source file; the spec gives its
contract in the commit-protocol and external-interface sections).  Given the
already-released flag, the snapshot read timestamp, the read-fingerprint log
and the optional conflict-key set, the oracle either declares a conflict —
handing the caller's `reads` and `conflict_keys` back unconsumed, issuing no
timestamp — or issues a commit timestamp.  Which of the two happens is
determined by the abstract decision function `orc`. -/
def Oracle.new_commit_ts
    (orc : Bool → Nat → List Nat → Option (List Nat) → OracleDecision)
    (done_read : Bool) (read_ts : Nat) (reads : List Nat)
    (conflict_keys : Option (List Nat)) : CreateCommitTimestampResult :=
  match orc done_read read_ts reads conflict_keys with
  | .conflict => .Conflict conflict_keys reads
  | .timestamp ts => .Timestamp ts

/-- Observable interactions of a transaction with the shared services: the
commit-serialization lock, the oracle's `new_commit_ts` call (with the
arguments handed over), the storage `apply` call (with the batch handed
over), `done_commit`, the read-watermark release (`read_mark.done`), and a
storage point lookup. -/
inductive Event (K V : Type) where
  | lockAcquire
  | lockRelease
  | newCommitTs (read_ts : Nat) (reads : List Nat) (conflict_keys : Option (List Nat))
  | applyCall (entries : List (Entry K V))
  | doneCommit (ts : Nat)
  | readMarkDone (ts : Nat)
  | storageGet (key : K) (ts : Nat)
  deriving DecidableEq, Repr

/-- Outcome of running an operation that may panic (an `unwrap` of a taken
buffer or a failed assertion in the original code). -/
inductive PanicOr (α : Type) where
  | panic
  | ret (a : α)

/-- State of a `WriteTransaction`, field for field: snapshot read timestamp,
running batch size and entry count, read-fingerprint log, optional
conflict-key set (`none` when conflict detection is disabled), the optional
pending-write buffer (`none` once taken by a commit), the ordered list of
superseded duplicate writes, and the two lifecycle flags. -/
structure Txn (K V : Type) where
  read_ts : Nat
  size : Nat
  count : Nat
  reads : List Nat
  conflict_keys : Option (List Nat)
  pending_writes : Option (PendingMap K V)
  duplicate_writes : List (Entry K V)
  discarded : Bool
  done_read : Bool
  deriving DecidableEq, Repr

variable {K V D M : Type}

/-- Translation of the private `done_read` method: release the read
watermark for `read_ts` once, guarded by the `done_read` flag. -/
def Txn.doneRead (t : Txn K V) : Txn K V × List (Event K V) :=
  if t.done_read then (t, [])
  else ({ t with done_read := true }, [Event.readMarkDone t.read_ts])

/-- Translation of `discard`: a no-op when already discarded, otherwise set
the flag and release the read watermark via `done_read`. -/
def Txn.discard (t : Txn K V) : Txn K V × List (Event K V) :=
  if t.discarded then (t, [])
  else Txn.doneRead { t with discarded := true }

/-- Translation of `get`: fail when discarded; consult the pending-write
buffer (a deletion marker yields `none`, a value is served as a `Pending`
item, in both cases without touching storage or the read log); otherwise
append the key's fingerprint to `reads` and delegate to the storage point
lookup at `read_ts`. -/
def Txn.get [DecidableEq K] (db : Database K V D) (t : Txn K V) (key : K) :
    PanicOr (Except (Error D M) (Option (Item K V)) × Txn K V × List (Event K V)) :=
  if t.discarded then
    .ret (.error (.Transaction .Discard), t, [])
  else
    match t.pending_writes with
    | none => .panic
    | some pw =>
      match pendingGet pw key with
      | some e =>
        match e.value with
        | none => .ret (.ok none, t, [])
        | some v => .ret (.ok (some (.Pending (.Insert key v) e.version)), t, [])
      | none =>
        let fp := db.fingerprint key
        let t' := { t with reads := t.reads ++ [fp] }
        match db.get_result key t'.read_ts with
        | .error e => .ret (.error (.Database e), t', [Event.storageGet key t'.read_ts])
        | .ok none => .ret (.ok none, t', [Event.storageGet key t'.read_ts])
        | .ok (some (.inl v)) => .ret (.ok (some (.Borrowed v)), t', [Event.storageGet key t'.read_ts])
        | .ok (some (.inr v)) => .ret (.ok (some (.Owned v)), t', [Event.storageGet key t'.read_ts])

/-- Translation of `iter`: fail when discarded, otherwise hand the overlay
(each buffered pair as an entry reference stamped with `read_ts`) together
with `read_ts` to the storage engine's merging iterator. -/
def Txn.iter (t : Txn K V) :
    PanicOr (Except (Error D M) (List (Entry K V) × Nat) × Txn K V) :=
  if t.discarded then
    .ret (.error (.Transaction .Discard), t)
  else
    match t.pending_writes with
    | none => .panic
    | some pw =>
      .ret (.ok
        (pw.map fun p =>
          { data :=
              match p.2.value with
              | some v => EntryData.Insert p.1 v
              | none => EntryData.Remove p.1
            version := t.read_ts },
        t.read_ts), t)

/-- Translation of `keys`: fail when discarded, otherwise hand the overlay's
keys (each stamped with `read_ts`) together with `read_ts` to the storage
engine's merging key iterator. -/
def Txn.keys (t : Txn K V) :
    PanicOr (Except (Error D M) (List (K × Nat) × Nat) × Txn K V) :=
  if t.discarded then
    .ret (.error (.Transaction .Discard), t)
  else
    match t.pending_writes with
    | none => .panic
    | some pw =>
      .ret (.ok (pw.map (fun p => (p.1, t.read_ts)), t.read_ts), t)

/-- Translation of `check_and_update_size`: bump the entry count and the
estimated size; fail with `LargeTxn` when either configured limit is
reached, leaving the transaction untouched. -/
def Txn.check_and_update_size (db : Database K V D) (t : Txn K V)
    (ent : Entry K V) : Except (Error D M) (Txn K V) :=
  let cnt := t.count + 1
  let size := t.size + db.estimate_size ent
  if cnt ≥ db.max_batch_entries ∨ size ≥ db.max_batch_size then
    .error (.Transaction .LargeTxn)
  else
    .ok { t with count := cnt, size := size }

/-- Translation of the private `modify`: fail when discarded; validate the
entry with the storage engine; bound-check size and count; record the key's
fingerprint in the conflict-key set when conflict detection is enabled;
remove any previously buffered entry for the same key, preserving it in
`duplicate_writes` when its version differs from the new entry's; finally
insert the new entry into the buffer. -/
def Txn.modify [DecidableEq K] (db : Database K V D) (t : Txn K V)
    (ent : Entry K V) : PanicOr (Except (Error D M) Unit × Txn K V) :=
  if t.discarded then
    .ret (.error (.Transaction .Discard), t)
  else
    match db.validate_entry ent with
    | .error e => .ret (.error (.Database e), t)
    | .ok _ =>
      match Txn.check_and_update_size (M := M) db t ent with
      | .error e => .ret (.error e, t)
      | .ok t1 =>
        let t2 :=
          match t1.conflict_keys with
          | some ck =>
            { t1 with conflict_keys := some (indexSetInsert ck (db.fingerprint ent.key)) }
          | none => t1
        let eversion := ent.version
        let ekv := ent.split
        match t2.pending_writes with
        | none => .panic
        | some pw =>
          let rem := pendingRemoveEntry pw ekv.1
          let t3 :=
            match rem.1 with
            | some old =>
              if old.2.version ≠ eversion then
                { t2 with duplicate_writes := t2.duplicate_writes ++ [Entry.unsplit old.1 old.2] }
              else t2
            | none => t2
          .ret (.ok (), { t3 with pending_writes := some (pendingInsert rem.2 ekv.1 ekv.2) })

/-- Translation of the private `insert_with_in`: buffer an insertion entry
stamped with the snapshot read timestamp. -/
def Txn.insert_with_in [DecidableEq K] (db : Database K V D) (t : Txn K V)
    (key : K) (value : V) : PanicOr (Except (Error D M) Unit × Txn K V) :=
  Txn.modify db t { data := .Insert key value, version := t.read_ts }

/-- Translation of `insert`. -/
def Txn.insert [DecidableEq K] (db : Database K V D) (t : Txn K V)
    (key : K) (value : V) : PanicOr (Except (Error D M) Unit × Txn K V) :=
  Txn.insert_with_in db t key value

/-- Translation of `remove`: buffer a deletion-marker entry at version 0. -/
def Txn.remove [DecidableEq K] (db : Database K V D) (t : Txn K V)
    (key : K) : PanicOr (Except (Error D M) Unit × Txn K V) :=
  Txn.modify db t { data := .Remove key, version := 0 }

/-- Translation of the private `commit_entries`: under the commit
serialization lock (acquired on entry, released when the function returns),
take the read log and the conflict-key set, request a commit timestamp from
the oracle; on conflict restore the returned logs into the transaction and
fail with `Conflict`; on success take the pending buffer and the duplicate
writes, stamp every entry with the commit timestamp (overlay entries first,
in enumeration order, duplicates after), and assert the timestamp is
non-zero. -/
def Txn.commit_entries
    (orc : Bool → Nat → List Nat → Option (List Nat) → OracleDecision)
    (t : Txn K V) :
    PanicOr (Except (TransactionError M) (Nat × List (Entry K V)) × Txn K V × List (Event K V)) :=
  let reads_t :=
    if t.reads.isEmpty then (([] : List Nat), t)
    else (t.reads, { t with reads := [] })
  let ck_t :=
    if reads_t.2.conflict_keys.isNone then ((none : Option (List Nat)), reads_t.2)
    else (reads_t.2.conflict_keys, { reads_t.2 with conflict_keys := none })
  let reads := reads_t.1
  let conflict_keys := ck_t.1
  let t1 := ck_t.2
  match Oracle.new_commit_ts orc t1.done_read t1.read_ts reads conflict_keys with
  | .Conflict ck rs =>
    .ret (.error .Conflict,
      { t1 with reads := rs, conflict_keys := ck },
      [.lockAcquire, .newCommitTs t1.read_ts reads conflict_keys, .lockRelease])
  | .Timestamp commit_ts =>
    match t1.pending_writes with
    | none => .panic
    | some pw =>
      let dups := t1.duplicate_writes
      let t2 := { t1 with pending_writes := none, duplicate_writes := [] }
      let entries :=
        pw.map (fun p => { Entry.unsplit p.1 p.2 with version := commit_ts })
          ++ dups.map (fun e => { e with version := commit_ts })
      if commit_ts = 0 then .panic
      else
        .ret (.ok (commit_ts, entries), t2,
          [.lockAcquire, .newCommitTs t2.read_ts reads conflict_keys, .lockRelease])

/-- Translation of `commit`: fail when discarded; when the overlay is empty,
discard and return success immediately; otherwise run `commit_entries` —
on a `Conflict` error return it without discarding, on any other error
discard first; then apply the batch to storage, calling `done_commit` with
the issued timestamp whether or not the apply succeeded, discarding only on
success. -/
def Txn.commit [DecidableEq K] (db : Database K V D)
    (orc : Bool → Nat → List Nat → Option (List Nat) → OracleDecision)
    (t : Txn K V) :
    PanicOr (Except (Error D M) Unit × Txn K V × List (Event K V)) :=
  if t.discarded then
    .ret (.error (.Transaction .Discard), t, [])
  else
    match t.pending_writes with
    | none => .panic
    | some pw =>
      if pw.isEmpty then
        let d := Txn.discard t
        .ret (.ok (), d.1, d.2)
      else
        match Txn.commit_entries (M := M) orc t with
        | .panic => .panic
        | .ret (.error e, t1, evs) =>
          match e with
          | .Conflict => .ret (.error (.Transaction .Conflict), t1, evs)
          | _ =>
            let d := Txn.discard t1
            .ret (.error (.Transaction e), d.1, evs ++ d.2)
        | .ret (.ok cte, t1, evs) =>
          let commit_ts := cte.1
          let entries := cte.2
          match db.apply_result entries with
          | .ok _ =>
            let d := Txn.discard t1
            .ret (.ok (), d.1,
              evs ++ [Event.applyCall entries, Event.doneCommit commit_ts] ++ d.2)
          | .error e =>
            .ret (.error (.Database e), t1,
              evs ++ [Event.applyCall entries, Event.doneCommit commit_ts])

/-- Translation of `commit_with_task`: the synchronous phase behaves like
`commit` up to and including `commit_entries`; the deferred task's behavior
is returned as a value: the apply outcome handed to the caller's callback
together with the events of the task (the apply call, then `done_commit`
with the issued timestamp in both branches).  An empty overlay discards and
schedules a task that immediately reports success. -/
def Txn.commit_with_task [DecidableEq K] (db : Database K V D)
    (orc : Bool → Nat → List Nat → Option (List Nat) → OracleDecision)
    (t : Txn K V) :
    PanicOr (Except (Error D M) (Except D Unit × List (Event K V)) × Txn K V × List (Event K V)) :=
  if t.discarded then
    .ret (.error (.Transaction .Discard), t, [])
  else
    match t.pending_writes with
    | none => .panic
    | some pw =>
      if pw.isEmpty then
        let d := Txn.discard t
        .ret (.ok (.ok (), []), d.1, d.2)
      else
        match Txn.commit_entries (M := M) orc t with
        | .panic => .panic
        | .ret (.error e, t1, evs) =>
          match e with
          | .Conflict => .ret (.error (.Transaction .Conflict), t1, evs)
          | _ =>
            let d := Txn.discard t1
            .ret (.error (.Transaction e), d.1, evs ++ d.2)
        | .ret (.ok cte, t1, evs) =>
          let commit_ts := cte.1
          let entries := cte.2
          .ret (.ok (db.apply_result entries,
              [Event.applyCall entries, Event.doneCommit commit_ts]),
            t1, evs)

/-! ## Helper lemmas -/

/-- First component of a split entry is the entry's key. -/
theorem Entry.split_fst {K V : Type} (e : Entry K V) : e.split.1 = e.key := by
  cases e with
  | mk data version => cases data <;> rfl

/-- Splitting then rebuilding an entry is the identity. -/
theorem Entry.unsplit_split {K V : Type} (e : Entry K V) :
    Entry.unsplit e.split.1 e.split.2 = e := by
  cases e with
  | mk data version => cases data <;> rfl

/-- Characterization of `commit_entries` when the oracle declares a conflict:
the error is `Conflict`, the transaction is returned with `reads` and
`conflict_keys` restored to their original values (hence unchanged), and the
lock is acquired and released around the single oracle call. -/
theorem Txn.commit_entries_conflict_eq {K V M : Type}
    (orc : Bool → Nat → List Nat → Option (List Nat) → OracleDecision)
    (t : Txn K V)
    (horc : orc t.done_read t.read_ts t.reads t.conflict_keys = .conflict) :
    Txn.commit_entries (M := M) orc t =
      .ret (.error .Conflict, t,
        [.lockAcquire, .newCommitTs t.read_ts t.reads t.conflict_keys, .lockRelease]) := by
  obtain ⟨rts, sz, cnt, rds, ck, pw, dw, disc, dr⟩ := t
  simp only at horc
  cases rds <;> cases ck <;>
    simp [Txn.commit_entries, Oracle.new_commit_ts, horc]

/-- Characterization of `commit_entries` when the oracle issues a non-zero
commit timestamp: the read log and conflict-key set are consumed, the pending
buffer and duplicate writes are taken, and the returned batch is the overlay
in enumeration order followed by the duplicates, every entry stamped with the
commit timestamp. -/
theorem Txn.commit_entries_timestamp_eq {K V M : Type}
    (orc : Bool → Nat → List Nat → Option (List Nat) → OracleDecision)
    (t : Txn K V) (pw : PendingMap K V) (cts : Nat)
    (hp : t.pending_writes = some pw)
    (horc : orc t.done_read t.read_ts t.reads t.conflict_keys = .timestamp cts)
    (hcts : cts ≠ 0) :
    Txn.commit_entries (M := M) orc t =
      .ret (.ok (cts,
          pw.map (fun p => { Entry.unsplit p.1 p.2 with version := cts })
            ++ t.duplicate_writes.map (fun e => { e with version := cts })),
        { t with reads := [], conflict_keys := none,
                 pending_writes := none, duplicate_writes := [] },
        [.lockAcquire, .newCommitTs t.read_ts t.reads t.conflict_keys, .lockRelease]) := by
  obtain ⟨rts, sz, cnt, rds, ck, pw0, dw, disc, dr⟩ := t
  simp only at horc hp
  subst hp
  cases rds <;> cases ck <;>
    simp [Txn.commit_entries, Oracle.new_commit_ts, horc, hcts]

/-- Characterization of `commit_entries` when the oracle issues timestamp 0:
the `assert_ne!(commit_ts, 0)` fires, i.e. the call panics. -/
theorem Txn.commit_entries_zero_eq {K V M : Type}
    (orc : Bool → Nat → List Nat → Option (List Nat) → OracleDecision)
    (t : Txn K V) (pw : PendingMap K V)
    (hp : t.pending_writes = some pw)
    (horc : orc t.done_read t.read_ts t.reads t.conflict_keys = .timestamp 0) :
    Txn.commit_entries (M := M) orc t = .panic := by
  obtain ⟨rts, sz, cnt, rds, ck, pw0, dw, disc, dr⟩ := t
  simp only at horc hp
  subst hp
  cases rds <;> cases ck <;>
    simp [Txn.commit_entries, Oracle.new_commit_ts, horc]

/-- Characterization of `commit` when the oracle declares a conflict: the
`Conflict` error is surfaced, the transaction is returned exactly as it was
before the attempt (in particular not discarded, with `reads` and
`conflict_keys` restored), and no apply or `done_commit` happens. -/
theorem Txn.commit_conflict_eq {K V D M : Type} [DecidableEq K]
    (db : Database K V D)
    (orc : Bool → Nat → List Nat → Option (List Nat) → OracleDecision)
    (t : Txn K V) (pw : PendingMap K V)
    (hd : t.discarded = false) (hp : t.pending_writes = some pw) (hne : pw ≠ [])
    (horc : orc t.done_read t.read_ts t.reads t.conflict_keys = .conflict) :
    Txn.commit (M := M) db orc t =
      .ret (.error (.Transaction .Conflict), t,
        [.lockAcquire, .newCommitTs t.read_ts t.reads t.conflict_keys, .lockRelease]) := by
  have hce := Txn.commit_entries_conflict_eq (M := M) orc t horc
  cases pw with
  | nil => exact absurd rfl hne
  | cons p rest => simp [Txn.commit, hd, hp, hce]

/-- Characterization of `commit` when the oracle issues a non-zero commit
timestamp: the stamped batch (overlay first, duplicates after) is handed to
the storage apply call after the serialization lock has been released;
`done_commit` runs with the issued timestamp whether or not the apply
succeeded; on success the transaction is discarded, on apply failure it is
returned un-discarded with its buffers taken. -/
theorem Txn.commit_timestamp_eq {K V D M : Type} [DecidableEq K]
    (db : Database K V D)
    (orc : Bool → Nat → List Nat → Option (List Nat) → OracleDecision)
    (t : Txn K V) (pw : PendingMap K V) (cts : Nat)
    (hd : t.discarded = false) (hp : t.pending_writes = some pw) (hne : pw ≠ [])
    (horc : orc t.done_read t.read_ts t.reads t.conflict_keys = .timestamp cts)
    (hcts : cts ≠ 0) :
    Txn.commit (M := M) db orc t =
      (match db.apply_result
          (pw.map (fun p => { Entry.unsplit p.1 p.2 with version := cts })
            ++ t.duplicate_writes.map (fun e => { e with version := cts })) with
       | .ok _ =>
         .ret (.ok (),
           (Txn.discard { t with
              reads := [], conflict_keys := none,
              pending_writes := none, duplicate_writes := [] }).1,
           [Event.lockAcquire, .newCommitTs t.read_ts t.reads t.conflict_keys,
            .lockRelease,
            .applyCall (pw.map (fun p => { Entry.unsplit p.1 p.2 with version := cts })
              ++ t.duplicate_writes.map (fun e => { e with version := cts })),
            .doneCommit cts]
             ++ (Txn.discard { t with
                  reads := [], conflict_keys := none,
                  pending_writes := none, duplicate_writes := [] }).2)
       | .error e =>
         .ret (.error (.Database e),
           { t with
               reads := [], conflict_keys := none,
               pending_writes := none, duplicate_writes := [] },
           [Event.lockAcquire, .newCommitTs t.read_ts t.reads t.conflict_keys,
            .lockRelease,
            .applyCall (pw.map (fun p => { Entry.unsplit p.1 p.2 with version := cts })
              ++ t.duplicate_writes.map (fun e => { e with version := cts })),
            .doneCommit cts])) := by
  have hce := Txn.commit_entries_timestamp_eq (M := M) orc t pw cts hp horc hcts
  cases pw with
  | nil => exact absurd rfl hne
  | cons p rest =>
    simp only [Txn.commit, hd, hp, hce, Bool.false_eq_true, if_false]
    cases happ : db.apply_result
        ((p :: rest).map (fun q => { Entry.unsplit q.1 q.2 with version := cts })
          ++ t.duplicate_writes.map (fun e => { e with version := cts })) <;>
      simp [happ]

/-! ## Concrete instances used by witnesses and counterexamples -/

/-- Concrete storage engine over natural-number keys and values: the
fingerprint of a key is the key itself, an entry's estimated size is its key,
the limits are 10 batch entries and 100 batch bytes, validation rejects
exactly the entries whose version is 99 (with error 7), point lookups find
nothing, and batch application fails with error 3 exactly when the batch
contains an entry with key 42. -/
def exDb : Database Nat Nat Nat where
  fingerprint := fun k => k
  estimate_size := fun ent => ent.key
  max_batch_entries := 10
  max_batch_size := 100
  validate_entry := fun ent => if ent.version = 99 then .error 7 else .ok ()
  get_result := fun _ _ => .ok none
  apply_result := fun es => if es.any (fun e => decide (e.key = 42)) then .error 3 else .ok ()

/-- Variant of the concrete storage engine whose point lookups always fail
with error 9, used to exercise the storage-read failure path of `get`. -/
def exDbReadFail : Database Nat Nat Nat :=
  { exDb with get_result := fun _ _ => .error 9 }

/-- Oracle decision function that always declares a conflict. -/
def exOrcConflict : Bool → Nat → List Nat → Option (List Nat) → OracleDecision :=
  fun _ _ _ _ => .conflict

/-- Oracle decision function that always issues the commit timestamp `n`. -/
def exOrcTs (n : Nat) : Bool → Nat → List Nat → Option (List Nat) → OracleDecision :=
  fun _ _ _ _ => .timestamp n

/-- A live transaction at snapshot timestamp 5 with one read fingerprint, one
conflict key, the given pending buffer and no duplicates. -/
def exTxn (pw : PendingMap Nat Nat) : Txn Nat Nat where
  read_ts := 5
  size := 0
  count := 0
  reads := [11]
  conflict_keys := some [22]
  pending_writes := some pw
  duplicate_writes := []
  discarded := false
  done_read := false

/-! ## Claims -/

/-- C1: for every write transaction whose commit attempt the oracle rejects
as a conflict, `commit` returns the `Conflict` error and hands back the
transaction exactly as it was before the attempt — in particular `discarded`
is still `false` and the read-fingerprint log and the conflict-key set are
restored unconsumed, equal to their values before the commit attempt. -/
theorem C1_conflict_keeps_transaction {K V D M : Type} [DecidableEq K]
    (db : Database K V D)
    (orc : Bool → Nat → List Nat → Option (List Nat) → OracleDecision)
    (t : Txn K V) (pw : PendingMap K V)
    (hd : t.discarded = false) (hp : t.pending_writes = some pw) (hne : pw ≠ [])
    (horc : orc t.done_read t.read_ts t.reads t.conflict_keys = .conflict) :
    ∃ tr, Txn.commit (M := M) db orc t = .ret (.error (.Transaction .Conflict), t, tr) ∧
      t.discarded = false ∧ (∀ es, Event.applyCall es ∉ tr) := by
  refine ⟨_, Txn.commit_conflict_eq db orc t pw hd hp hne horc, hd, ?_⟩
  intro es h
  simp at h

/-- Witness for C1 at a concrete input: a transaction holding one buffered
write, committed against an always-conflicting oracle. -/
theorem C1_witness :
    ∃ tr, Txn.commit (M := Nat) exDb exOrcConflict (exTxn [(1, ⟨some 2, 5⟩)]) =
        .ret (.error (.Transaction .Conflict), exTxn [(1, ⟨some 2, 5⟩)], tr) ∧
      (exTxn [(1, ⟨some 2, 5⟩)]).discarded = false ∧
      (∀ es, Event.applyCall es ∉ tr) :=
  C1_conflict_keeps_transaction exDb exOrcConflict (exTxn [(1, ⟨some 2, 5⟩)])
    [(1, ⟨some 2, 5⟩)] rfl rfl (by decide) rfl

/-- C6: committing a non-discarded transaction whose pending-write overlay is
empty discards the transaction and returns success, without requesting a
commit timestamp from the oracle and without submitting anything to
storage. -/
theorem C6_empty_commit_is_noop {K V D M : Type} [DecidableEq K]
    (db : Database K V D)
    (orc : Bool → Nat → List Nat → Option (List Nat) → OracleDecision)
    (t : Txn K V)
    (hd : t.discarded = false)
    (hp : t.pending_writes = some ([] : PendingMap K V)) :
    ∃ t' tr, Txn.commit (M := M) db orc t = .ret (.ok (), t', tr) ∧
      t'.discarded = true ∧
      (∀ a b c, Event.newCommitTs a b c ∉ tr) ∧
      (∀ es, Event.applyCall es ∉ tr) := by
  refine ⟨(Txn.discard t).1, (Txn.discard t).2, ?_, ?_, ?_, ?_⟩
  · simp [Txn.commit, hd, hp]
  · by_cases hdr : t.done_read <;> simp [Txn.discard, Txn.doneRead, hd, hdr]
  · intro a b c
    by_cases hdr : t.done_read <;> simp [Txn.discard, Txn.doneRead, hd, hdr]
  · intro es
    by_cases hdr : t.done_read <;> simp [Txn.discard, Txn.doneRead, hd, hdr]

/-- Witness for C6 at a concrete input: a live transaction with an empty
overlay commits successfully without any oracle or storage interaction. -/
theorem C6_witness :
    ∃ t' tr, Txn.commit (M := Nat) exDb (exOrcTs 7) (exTxn []) = .ret (.ok (), t', tr) ∧
      t'.discarded = true ∧
      (∀ a b c, Event.newCommitTs a b c ∉ tr) ∧
      (∀ es, Event.applyCall es ∉ tr) :=
  C6_empty_commit_is_noop exDb (exOrcTs 7) (exTxn []) rfl rfl

/-- C7: on a live transaction, `get` consults the pending-write overlay
first: a buffered deletion marker yields "not found"; a buffered value is
returned as a pending item with no read fingerprint recorded and no storage
access; only when the key is absent from the overlay is the key's
fingerprint appended to `reads` and the lookup delegated to storage at
`read_ts`. -/
theorem C7_get_prefers_overlay {K V D M : Type} [DecidableEq K]
    (db : Database K V D) (t : Txn K V) (key : K) (pw : PendingMap K V)
    (hd : t.discarded = false) (hp : t.pending_writes = some pw) :
    (∀ e, pendingGet pw key = some e → e.value = none →
        Txn.get (M := M) db t key = .ret (.ok none, t, [])) ∧
    (∀ e v, pendingGet pw key = some e → e.value = some v →
        Txn.get (M := M) db t key =
          .ret (.ok (some (.Pending (.Insert key v) e.version)), t, [])) ∧
    (pendingGet pw key = none →
        Txn.get (M := M) db t key =
          .ret ((match db.get_result key t.read_ts with
                 | .error e => .error (.Database e)
                 | .ok none => .ok none
                 | .ok (some (.inl v)) => .ok (some (.Borrowed v))
                 | .ok (some (.inr v)) => .ok (some (.Owned v))),
            { t with reads := t.reads ++ [db.fingerprint key] },
            [Event.storageGet key t.read_ts])) := by
  refine ⟨?_, ?_, ?_⟩
  · intro e hpg hv
    simp [Txn.get, hd, hp, hpg, hv]
  · intro e v hpg hv
    simp [Txn.get, hd, hp, hpg, hv]
  · intro hpg
    simp only [Txn.get, hd, hp, hpg, Bool.false_eq_true, if_false]
    cases hres : db.get_result key t.read_ts with
    | error e => simp [hres]
    | ok o =>
      cases o with
      | none => simp [hres]
      | some s => cases s <;> simp [hres]

/-- Witness for C7 at concrete inputs: a buffered deletion marker under key
3 reads as "not found", a buffered value under key 1 is served from the
overlay leaving the read log untouched, and the absent key 9 is fingerprinted
and delegated to storage. -/
theorem C7_witness :
    Txn.get (M := Nat) exDb (exTxn [(1, ⟨some 2, 5⟩), (3, ⟨none, 5⟩)]) 3 =
      .ret (.ok none, exTxn [(1, ⟨some 2, 5⟩), (3, ⟨none, 5⟩)], []) ∧
    Txn.get (M := Nat) exDb (exTxn [(1, ⟨some 2, 5⟩), (3, ⟨none, 5⟩)]) 1 =
      .ret (.ok (some (.Pending (.Insert 1 2) 5)), exTxn [(1, ⟨some 2, 5⟩), (3, ⟨none, 5⟩)], []) ∧
    Txn.get (M := Nat) exDb (exTxn [(1, ⟨some 2, 5⟩), (3, ⟨none, 5⟩)]) 9 =
      .ret (.ok none,
        { exTxn [(1, ⟨some 2, 5⟩), (3, ⟨none, 5⟩)] with reads := [11, 9] },
        [Event.storageGet 9 5]) := by
  refine ⟨?_, ?_, ?_⟩
  · exact (C7_get_prefers_overlay exDb (exTxn [(1, ⟨some 2, 5⟩), (3, ⟨none, 5⟩)]) 3
      [(1, ⟨some 2, 5⟩), (3, ⟨none, 5⟩)] rfl rfl).1 ⟨none, 5⟩ rfl rfl
  · exact (C7_get_prefers_overlay exDb (exTxn [(1, ⟨some 2, 5⟩), (3, ⟨none, 5⟩)]) 1
      [(1, ⟨some 2, 5⟩), (3, ⟨none, 5⟩)] rfl rfl).2.1 ⟨some 2, 5⟩ 2 rfl rfl
  · exact (C7_get_prefers_overlay exDb (exTxn [(1, ⟨some 2, 5⟩), (3, ⟨none, 5⟩)]) 9
      [(1, ⟨some 2, 5⟩), (3, ⟨none, 5⟩)] rfl rfl).2.2 rfl

/-- C9: `discard` is idempotent (a second call is a no-op with no observable
effect); it releases the read watermark for `read_ts` exactly once, guarded
by the `done_read` flag; and every operation — `get`, `iter`, `keys`,
`insert`, `remove`, `commit` — invoked on a discarded transaction fails with
the `Discarded` error, leaving the transaction unchanged and producing no
interaction with the shared services. -/
theorem C9_discard_lifecycle {K V D M : Type} [DecidableEq K] :
    (∀ t : Txn K V, Txn.discard (Txn.discard t).1 = ((Txn.discard t).1, [])) ∧
    (∀ t : Txn K V, t.discarded = false → t.done_read = false →
        Txn.discard t = ({ t with discarded := true, done_read := true },
          [Event.readMarkDone t.read_ts])) ∧
    (∀ t : Txn K V, t.discarded = false → t.done_read = true →
        Txn.discard t = ({ t with discarded := true }, [])) ∧
    (∀ (db : Database K V D) (t : Txn K V) (key : K), t.discarded = true →
        Txn.get (M := M) db t key = .ret (.error (.Transaction .Discard), t, [])) ∧
    (∀ t : Txn K V, t.discarded = true →
        Txn.iter (D := D) (M := M) t = .ret (.error (.Transaction .Discard), t)) ∧
    (∀ t : Txn K V, t.discarded = true →
        Txn.keys (D := D) (M := M) t = .ret (.error (.Transaction .Discard), t)) ∧
    (∀ (db : Database K V D) (t : Txn K V) (key : K) (value : V), t.discarded = true →
        Txn.insert (M := M) db t key value = .ret (.error (.Transaction .Discard), t)) ∧
    (∀ (db : Database K V D) (t : Txn K V) (key : K), t.discarded = true →
        Txn.remove (M := M) db t key = .ret (.error (.Transaction .Discard), t)) ∧
    (∀ (db : Database K V D)
        (orc : Bool → Nat → List Nat → Option (List Nat) → OracleDecision)
        (t : Txn K V), t.discarded = true →
        Txn.commit (M := M) db orc t = .ret (.error (.Transaction .Discard), t, [])) := by
  refine ⟨?_, ?_, ?_, ?_, ?_, ?_, ?_, ?_, ?_⟩
  · intro t
    by_cases hd : t.discarded <;> by_cases hdr : t.done_read <;>
      simp [Txn.discard, Txn.doneRead, hd, hdr]
  · intro t hd hdr
    simp [Txn.discard, Txn.doneRead, hd, hdr]
  · intro t hd hdr
    simp [Txn.discard, Txn.doneRead, hd, hdr]
  · intro db t key hd
    simp [Txn.get, hd]
  · intro t hd
    simp [Txn.iter, hd]
  · intro t hd
    simp [Txn.keys, hd]
  · intro db t key value hd
    simp [Txn.insert, Txn.insert_with_in, Txn.modify, hd]
  · intro db t key hd
    simp [Txn.remove, Txn.modify, hd]
  · intro db orc t hd
    simp [Txn.commit, hd]

/-- Witness for C9 at a concrete input: a discarded transaction rejects every
operation with the `Discarded` error, and a second discard of a freshly
discarded transaction is a no-op. -/
theorem C9_witness :
    Txn.discard (Txn.discard (exTxn [])).1 = ((Txn.discard (exTxn [])).1, []) ∧
    Txn.discard (exTxn []) =
      ({ exTxn [] with discarded := true, done_read := true }, [Event.readMarkDone 5]) ∧
    Txn.get (M := Nat) exDb { exTxn [] with discarded := true } 1 =
      .ret (.error (.Transaction .Discard), { exTxn [] with discarded := true }, []) ∧
    Txn.insert (M := Nat) exDb { exTxn [] with discarded := true } 1 2 =
      .ret (.error (.Transaction .Discard), { exTxn [] with discarded := true }) ∧
    Txn.commit (M := Nat) exDb (exOrcTs 7) { exTxn [] with discarded := true } =
      .ret (.error (.Transaction .Discard), { exTxn [] with discarded := true }, []) :=
  ⟨(C9_discard_lifecycle (D := Nat) (M := Nat)).1 (exTxn []),
   (C9_discard_lifecycle (D := Nat) (M := Nat)).2.1 (exTxn []) rfl rfl,
   (C9_discard_lifecycle (D := Nat) (M := Nat)).2.2.2.1 exDb
     { exTxn [] with discarded := true } 1 rfl,
   (C9_discard_lifecycle (D := Nat) (M := Nat)).2.2.2.2.2.2.1 exDb
     { exTxn [] with discarded := true } 1 2 rfl,
   (C9_discard_lifecycle (D := Nat) (M := Nat)).2.2.2.2.2.2.2.2 exDb (exOrcTs 7)
     { exTxn [] with discarded := true } rfl⟩

/-- C3: evaluation of a successful commit of one buffered write.  The event
trace shows the commit-serialization lock being released (when
`commit_entries` returns) strictly before the batch is handed to the storage
apply call, contradicting the claim that the lock is held from before the
commit-timestamp request until after the hand-off: the trace decomposes as
`... ++ [lockRelease] ++ ... ++ [applyCall ...] ++ ...`. -/
theorem C3_lock_released_before_apply :
    Txn.commit (M := Nat) exDb (exOrcTs 7) (exTxn [(1, ⟨some 2, 5⟩)]) =
      .ret (.ok (),
        { read_ts := 5, size := 0, count := 0, reads := [], conflict_keys := none,
          pending_writes := none, duplicate_writes := [], discarded := true,
          done_read := true },
        [.lockAcquire, .newCommitTs 5 [11] (some [22]), .lockRelease,
         .applyCall [⟨.Insert 1 2, 7⟩], .doneCommit 7, .readMarkDone 5]) ∧
    [Event.lockAcquire, .newCommitTs 5 [11] (some [22]), .lockRelease,
     .applyCall [⟨.Insert 1 2, 7⟩], .doneCommit 7, .readMarkDone 5] =
      [Event.lockAcquire, .newCommitTs 5 [11] (some [22])] ++ [Event.lockRelease]
        ++ ([] : List (Event Nat Nat))
        ++ [Event.applyCall [⟨.Insert 1 2, 7⟩]] ++ [.doneCommit 7, .readMarkDone 5] :=
  ⟨rfl, rfl⟩

/-- C4 counterexample: buffering an oversized entry fails `modify` with the
non-`Conflict` error `LargeTxn`, yet the transaction is returned unchanged —
its `discarded` flag is still `false`, so this failure path did not trigger
an automatic discard. -/
theorem C4_counterexample :
    Txn.modify (M := Nat) exDb (exTxn []) ⟨.Insert 100 0, 5⟩ =
      .ret (.error (.Transaction .LargeTxn), exTxn []) ∧
    (exTxn []).discarded = false :=
  ⟨rfl, rfl⟩

/-- C4 as amended: automatic discard happens only inside `commit` for
non-`Conflict` failures of the timestamp/conflict-check phase; no other
failure discards.  Precisely: the failure paths of `modify` (hence
`insert`/`remove`) — entry validation and the size/count limit — return the
transaction unchanged; a `get` on a live transaction that fails on the
storage read returns the transaction changed only by the read fingerprint
appended before the lookup (so `discarded` is still `false`), and its error
is the storage error; and a storage-apply failure inside `commit` leaves the
transaction un-discarded. -/
theorem C4_no_discard_on_operation_failures {K V D M : Type} [DecidableEq K] :
    (∀ (db : Database K V D) (t : Txn K V) (ent : Entry K V)
        (err : Error D M) (t' : Txn K V),
        Txn.modify db t ent = .ret (.error err, t') → t' = t) ∧
    (∀ (db : Database K V D) (t : Txn K V) (key : K)
        (err : Error D M) (t' : Txn K V) (tr : List (Event K V)),
        t.discarded = false →
        Txn.get db t key = .ret (.error err, t', tr) →
        t' = { t with reads := t.reads ++ [db.fingerprint key] } ∧
          (∃ e, err = .Database e)) ∧
    (∀ (db : Database K V D)
        (orc : Bool → Nat → List Nat → Option (List Nat) → OracleDecision)
        (t : Txn K V) (pw : PendingMap K V) (cts : Nat) (e : D),
        t.discarded = false → t.pending_writes = some pw → pw ≠ [] →
        orc t.done_read t.read_ts t.reads t.conflict_keys = .timestamp cts → cts ≠ 0 →
        db.apply_result (pw.map (fun p => { Entry.unsplit p.1 p.2 with version := cts })
            ++ t.duplicate_writes.map (fun e => { e with version := cts })) = .error e →
        ∃ t' tr, Txn.commit (M := M) db orc t = .ret (.error (.Database e), t', tr) ∧
          t'.discarded = false) := by
  refine ⟨?_, ?_, ?_⟩
  · intro db t ent err t' h
    by_cases hd : t.discarded
    · simp [Txn.modify, hd] at h
      exact h.2.symm
    · cases hv : db.validate_entry ent with
      | error e =>
        simp [Txn.modify, hd, hv] at h
        exact h.2.symm
      | ok u =>
        cases hs : Txn.check_and_update_size (M := M) db t ent with
        | error e2 =>
          simp [Txn.modify, hd, hv, hs] at h
          exact h.2.symm
        | ok t1 =>
          cases hck : t1.conflict_keys <;>
            cases hpw : t1.pending_writes <;>
            simp [Txn.modify, hd, hv, hs, hck, hpw] at h
  · intro db t key err t' tr hd h
    obtain ⟨rts, sz, cnt, rds, ck, pws, dw, disc, dr⟩ := t
    simp only at hd
    subst hd
    cases pws with
    | none => simp [Txn.get] at h
    | some pw =>
      cases hg : pendingGet pw key with
      | some e =>
        cases he : e.value <;> simp [Txn.get, hg, he] at h
      | none =>
        cases hres : db.get_result key rts with
        | error er =>
          simp [Txn.get, hg, hres] at h
          obtain ⟨h1, h2, -⟩ := h
          exact ⟨h2.symm, er, h1.symm⟩
        | ok o =>
          cases o with
          | none =>
            simp [Txn.get, hg, hres] at h
          | some s =>
            cases s <;> simp [Txn.get, hg, hres] at h
  · intro db orc t pw cts e hd hp hne horc hcts happ
    have hc := Txn.commit_timestamp_eq (M := M) db orc t pw cts hd hp hne horc hcts
    rw [happ] at hc
    exact ⟨_, _, hc, hd⟩

/-- Witness for C4's amended statement at concrete inputs: an unchanged
transaction after a failed `modify`; a `get` whose storage lookup fails,
returning the transaction with exactly the read fingerprint appended and the
storage error; and an un-discarded transaction after a commit whose storage
apply failed. -/
theorem C4_witness :
    (exTxn [] = exTxn []) ∧
    (Txn.get (M := Nat) exDbReadFail (exTxn []) 9 =
        .ret (.error (.Database 9), { exTxn [] with reads := [11, 9] },
          [Event.storageGet 9 5]) ∧
      ({ exTxn [] with reads := [11, 9] } : Txn Nat Nat) =
        { exTxn [] with reads := (exTxn []).reads ++ [exDbReadFail.fingerprint 9] } ∧
      (∃ e, (Error.Database 9 : Error Nat Nat) = .Database e)) ∧
    ∃ t' tr, Txn.commit (M := Nat) exDb (exOrcTs 7) (exTxn [(42, ⟨some 1, 5⟩)]) =
        .ret (.error (.Database 3), t', tr) ∧ t'.discarded = false :=
  ⟨(C4_no_discard_on_operation_failures (K := Nat) (V := Nat) (D := Nat)
        (M := Nat)).1 exDb (exTxn [])
      ⟨.Insert 100 0, 5⟩ (.Transaction .LargeTxn) (exTxn []) rfl,
   ⟨rfl,
    (C4_no_discard_on_operation_failures (K := Nat) (V := Nat) (D := Nat)
        (M := Nat)).2.1 exDbReadFail (exTxn []) 9 (.Database 9)
      { exTxn [] with reads := [11, 9] } [Event.storageGet 9 5] rfl rfl⟩,
   (C4_no_discard_on_operation_failures (K := Nat) (V := Nat) (D := Nat)
        (M := Nat)).2.2 exDb (exOrcTs 7)
      (exTxn [(42, ⟨some 1, 5⟩)]) [(42, ⟨some 1, 5⟩)] 7 3 rfl rfl (by decide) rfl
      (by decide) rfl⟩

/-- C5: whenever the oracle issues a commit timestamp, `done_commit` is
invoked with that timestamp regardless of the storage apply outcome; when the
apply fails the storage error is surfaced and the transaction is left
un-discarded.  The same holds for the background task scheduled by
`commit_with_task`: its event list calls `done_commit` in both branches. -/
theorem C5_done_commit_regardless_of_apply {K V D M : Type} [DecidableEq K]
    (db : Database K V D)
    (orc : Bool → Nat → List Nat → Option (List Nat) → OracleDecision)
    (t : Txn K V) (pw : PendingMap K V) (cts : Nat)
    (hd : t.discarded = false) (hp : t.pending_writes = some pw) (hne : pw ≠ [])
    (horc : orc t.done_read t.read_ts t.reads t.conflict_keys = .timestamp cts)
    (hcts : cts ≠ 0) :
    (∀ u, db.apply_result (pw.map (fun p => { Entry.unsplit p.1 p.2 with version := cts })
          ++ t.duplicate_writes.map (fun e => { e with version := cts })) = .ok u →
        ∃ t' tr, Txn.commit (M := M) db orc t = .ret (.ok (), t', tr) ∧
          Event.doneCommit cts ∈ tr) ∧
    (∀ e, db.apply_result (pw.map (fun p => { Entry.unsplit p.1 p.2 with version := cts })
          ++ t.duplicate_writes.map (fun e => { e with version := cts })) = .error e →
        ∃ t' tr, Txn.commit (M := M) db orc t = .ret (.error (.Database e), t', tr) ∧
          Event.doneCommit cts ∈ tr ∧ t'.discarded = false) := by
  have hc := Txn.commit_timestamp_eq (M := M) db orc t pw cts hd hp hne horc hcts
  constructor
  · intro u happ
    rw [happ] at hc
    exact ⟨_, _, hc, by simp⟩
  · intro e happ
    rw [happ] at hc
    exact ⟨_, _, hc, by simp, hd⟩

/-- Witness for C5 at concrete inputs: with an oracle issuing timestamp 7,
`done_commit 7` appears in the trace both for a successful apply and for a
failing one, and the failing case leaves the transaction un-discarded. -/
theorem C5_witness :
    (∃ t' tr, Txn.commit (M := Nat) exDb (exOrcTs 7) (exTxn [(1, ⟨some 2, 5⟩)]) =
        .ret (.ok (), t', tr) ∧ Event.doneCommit 7 ∈ tr) ∧
    (∃ t' tr, Txn.commit (M := Nat) exDb (exOrcTs 7) (exTxn [(42, ⟨some 1, 5⟩)]) =
        .ret (.error (.Database 3), t', tr) ∧ Event.doneCommit 7 ∈ tr ∧
        t'.discarded = false) :=
  ⟨(C5_done_commit_regardless_of_apply exDb (exOrcTs 7) (exTxn [(1, ⟨some 2, 5⟩)])
      [(1, ⟨some 2, 5⟩)] 7 rfl rfl (by decide) rfl (by decide)).1 () rfl,
   (C5_done_commit_regardless_of_apply exDb (exOrcTs 7) (exTxn [(42, ⟨some 1, 5⟩)])
      [(42, ⟨some 1, 5⟩)] 7 rfl rfl (by decide) rfl (by decide)).2 3 rfl⟩

/-- The only error `check_and_update_size` can produce is `LargeTxn`. -/
theorem Txn.check_and_update_size_error_inv {K V D M : Type}
    (db : Database K V D) (t : Txn K V) (ent : Entry K V) (e : Error D M)
    (h : Txn.check_and_update_size (M := M) db t ent = .error e) :
    e = .Transaction .LargeTxn := by
  unfold Txn.check_and_update_size at h
  by_cases hc : t.count + 1 ≥ db.max_batch_entries ∨
      t.size + db.estimate_size ent ≥ db.max_batch_size
  · simp only [hc, if_true] at h
    exact (Except.error.inj h).symm
  · simp [hc] at h

/-- C8 counterexample: on a fresh transaction, buffering an entry of
estimated size 100 (the configured byte limit) fails with `LargeTxn`
(`TooLarge`) and leaves the transaction unchanged; yet a subsequent smaller
write on that same post-failure transaction succeeds — so after a TooLarge
failure caused by the byte-size limit further successful writes do occur
without any discard. -/
theorem C8_counterexample :
    Txn.modify (M := Nat) exDb (exTxn []) ⟨.Insert 100 0, 5⟩ =
      .ret (.error (.Transaction .LargeTxn), exTxn []) ∧
    Txn.modify (M := Nat) exDb (exTxn []) ⟨.Insert 1 2, 5⟩ =
      .ret (.ok (), { exTxn [] with
        size := 1, count := 1, conflict_keys := some [22, 1],
        pending_writes := some [(1, ⟨some 2, 5⟩)] }) :=
  ⟨rfl, rfl⟩

/-- C8 as amended: when bumping the entry count or the estimated size would
reach the configured limit, `modify` fails with `LargeTxn` and the
transaction is returned unchanged — no partial buffering of the offending
write (size, count, conflict keys and the overlay untouched); in particular
buffering another entry when `count` equals `max_batch_entries` fails; and
when the entry-count limit is the one reached, no subsequent `modify` can
ever succeed (the count never decreases below the limit), while after a pure
byte-size failure a smaller write may still succeed. -/
theorem C8_too_large_limits {K V D M : Type} [DecidableEq K] :
    (∀ (db : Database K V D) (t : Txn K V) (ent : Entry K V) (u : Unit),
        t.discarded = false → db.validate_entry ent = .ok u →
        (t.count + 1 ≥ db.max_batch_entries ∨
          t.size + db.estimate_size ent ≥ db.max_batch_size) →
        Txn.modify (M := M) db t ent = .ret (.error (.Transaction .LargeTxn), t)) ∧
    (∀ (db : Database K V D) (t : Txn K V) (ent : Entry K V) (u : Unit),
        t.discarded = false → db.validate_entry ent = .ok u →
        t.count = db.max_batch_entries →
        Txn.modify (M := M) db t ent = .ret (.error (.Transaction .LargeTxn), t)) ∧
    (∀ (db : Database K V D) (t : Txn K V) (ent : Entry K V) (t' : Txn K V),
        t.count + 1 ≥ db.max_batch_entries →
        Txn.modify (M := M) db t ent ≠ .ret (.ok (), t')) := by
  have main : ∀ (db : Database K V D) (t : Txn K V) (ent : Entry K V) (u : Unit),
      t.discarded = false → db.validate_entry ent = .ok u →
      (t.count + 1 ≥ db.max_batch_entries ∨
        t.size + db.estimate_size ent ≥ db.max_batch_size) →
      Txn.modify (M := M) db t ent = .ret (.error (.Transaction .LargeTxn), t) := by
    intro db t ent u hd hv hcond
    rcases hcond with hc | hc <;>
      simp [Txn.modify, Txn.check_and_update_size, hd, hv, hc]
  refine ⟨main, ?_, ?_⟩
  · intro db t ent u hd hv hN
    exact main db t ent u hd hv (Or.inl (by omega))
  · intro db t ent t' hN h
    by_cases hd : t.discarded
    · simp [Txn.modify, hd] at h
    · cases hv : db.validate_entry ent with
      | error e => simp [Txn.modify, hd, hv] at h
      | ok u =>
        rw [main db t ent u (by simpa using hd) hv (Or.inl hN)] at h
        simp at h

/-- Witness for C8's amended statement at concrete inputs: the oversized
entry fails leaving the transaction unchanged, another entry fails when the
count sits at the entry limit, and no write can succeed at that count. -/
theorem C8_witness :
    Txn.modify (M := Nat) exDb (exTxn []) ⟨.Insert 100 0, 5⟩ =
      .ret (.error (.Transaction .LargeTxn), exTxn []) ∧
    Txn.modify (M := Nat) exDb { exTxn [] with count := 10 } ⟨.Insert 1 2, 5⟩ =
      .ret (.error (.Transaction .LargeTxn), { exTxn [] with count := 10 }) ∧
    Txn.modify (M := Nat) exDb { exTxn [] with count := 10 } ⟨.Insert 1 2, 5⟩ ≠
      .ret (.ok (), { exTxn [] with count := 10 }) :=
  ⟨(C8_too_large_limits (K := Nat) (V := Nat) (D := Nat) (M := Nat)).1 exDb
      (exTxn []) ⟨.Insert 100 0, 5⟩ () rfl rfl (Or.inr (by decide)),
   (C8_too_large_limits (K := Nat) (V := Nat) (D := Nat) (M := Nat)).2.1 exDb
      { exTxn [] with count := 10 } ⟨.Insert 1 2, 5⟩ () rfl rfl rfl,
   (C8_too_large_limits (K := Nat) (V := Nat) (D := Nat) (M := Nat)).2.2 exDb
      { exTxn [] with count := 10 } ⟨.Insert 1 2, 5⟩ { exTxn [] with count := 10 }
      (by decide)⟩

/-- The transaction state produced by a commit whose storage apply failed:
still live (`discarded = false`) but with the pending-write buffer taken. -/
def exPoisoned : Txn Nat Nat where
  read_ts := 5
  size := 0
  count := 0
  reads := []
  conflict_keys := none
  pending_writes := none
  duplicate_writes := []
  discarded := false
  done_read := false

/-- C10 counterexample: after a commit whose storage apply failed, the
transaction is left un-discarded with `pending_writes` taken; `get`, `iter`,
`keys` and `commit` then indeed panic, but an `insert` whose entry fails the
storage engine's validation returns that validation error — it does not
reach the `unwrap` of the taken buffer — so not every subsequent operation
panics instead of returning an error. -/
theorem C10_counterexample :
    Txn.commit (M := Nat) exDb (exOrcTs 7) (exTxn [(42, ⟨some 1, 5⟩)]) =
      .ret (.error (.Database 3), exPoisoned,
        [.lockAcquire, .newCommitTs 5 [11] (some [22]), .lockRelease,
         .applyCall [⟨.Insert 42 1, 7⟩], .doneCommit 7]) ∧
    exPoisoned.discarded = false ∧
    exPoisoned.pending_writes = none ∧
    Txn.modify (M := Nat) exDb exPoisoned ⟨.Insert 2 2, 99⟩ =
      .ret (.error (.Database 7), exPoisoned) :=
  ⟨rfl, rfl, rfl, rfl⟩

/-- C10 as amended: a commit that obtained a commit timestamp but whose
storage apply failed returns the storage error leaving the transaction with
`discarded = false` and `pending_writes` taken (`none`); on such a
transaction every subsequent `get`, `iter`, `keys` or `commit` passes the
discarded check and panics on the `unwrap` of the taken buffer, and
`insert`/`remove` (via `modify`) also panic whenever entry validation and
the size bound check pass — when one of those fails first, the error it
produces is returned instead, and in no case is a `Discarded` error
returned. -/
theorem C10_poisoned_after_apply_failure {K V D M : Type} [DecidableEq K] :
    (∀ (db : Database K V D)
        (orc : Bool → Nat → List Nat → Option (List Nat) → OracleDecision)
        (t : Txn K V) (pw : PendingMap K V) (cts : Nat) (e : D),
        t.discarded = false → t.pending_writes = some pw → pw ≠ [] →
        orc t.done_read t.read_ts t.reads t.conflict_keys = .timestamp cts → cts ≠ 0 →
        db.apply_result (pw.map (fun p => { Entry.unsplit p.1 p.2 with version := cts })
            ++ t.duplicate_writes.map (fun e => { e with version := cts })) = .error e →
        ∃ tr, Txn.commit (M := M) db orc t =
          .ret (.error (.Database e),
            { t with
                reads := [], conflict_keys := none,
                pending_writes := none, duplicate_writes := [] }, tr)) ∧
    (∀ (db : Database K V D) (t : Txn K V) (key : K),
        t.discarded = false → t.pending_writes = none →
        Txn.get (M := M) db t key = .panic) ∧
    (∀ t : Txn K V, t.discarded = false → t.pending_writes = none →
        Txn.iter (D := D) (M := M) t = .panic) ∧
    (∀ t : Txn K V, t.discarded = false → t.pending_writes = none →
        Txn.keys (D := D) (M := M) t = .panic) ∧
    (∀ (db : Database K V D)
        (orc : Bool → Nat → List Nat → Option (List Nat) → OracleDecision)
        (t : Txn K V), t.discarded = false → t.pending_writes = none →
        Txn.commit (M := M) db orc t = .panic) ∧
    (∀ (db : Database K V D) (t : Txn K V) (ent : Entry K V) (u : Unit),
        t.discarded = false → t.pending_writes = none →
        db.validate_entry ent = .ok u →
        t.count + 1 < db.max_batch_entries →
        t.size + db.estimate_size ent < db.max_batch_size →
        Txn.modify (M := M) db t ent = .panic) ∧
    (∀ (db : Database K V D) (t : Txn K V) (ent : Entry K V)
        (err : Error D M) (t' : Txn K V), t.discarded = false →
        Txn.modify db t ent = .ret (.error err, t') →
        err ≠ .Transaction .Discard) := by
  refine ⟨?_, ?_, ?_, ?_, ?_, ?_, ?_⟩
  · intro db orc t pw cts e hd hp hne horc hcts happ
    have hc := Txn.commit_timestamp_eq (M := M) db orc t pw cts hd hp hne horc hcts
    rw [happ] at hc
    exact ⟨_, hc⟩
  · intro db t key hd hpn
    simp [Txn.get, hd, hpn]
  · intro t hd hpn
    simp [Txn.iter, hd, hpn]
  · intro t hd hpn
    simp [Txn.keys, hd, hpn]
  · intro db orc t hd hpn
    simp [Txn.commit, hd, hpn]
  · intro db t ent u hd hpn hv h1 h2
    have hcond : ¬(t.count + 1 ≥ db.max_batch_entries ∨
        t.size + db.estimate_size ent ≥ db.max_batch_size) := by omega
    cases hck : t.conflict_keys <;>
      simp [Txn.modify, Txn.check_and_update_size, hd, hv, hcond, hck, hpn]
  · intro db t ent err t' hd h heq
    subst heq
    cases hv : db.validate_entry ent with
    | error e => simp [Txn.modify, hd, hv] at h
    | ok u =>
      cases hs : Txn.check_and_update_size (M := M) db t ent with
      | error e2 =>
        have he2 := Txn.check_and_update_size_error_inv db t ent e2 hs
        subst he2
        simp [Txn.modify, hd, hv, hs] at h
      | ok t1 =>
        cases hck : t1.conflict_keys <;>
          cases hpw : t1.pending_writes <;>
          simp [Txn.modify, hd, hv, hs, hck, hpw] at h

/-- Witness for C10's amended statement at concrete inputs: the failing
commit leaves the poisoned state, on which `get` and `commit` panic, a
validating `insert` panics, and a failing `insert` never reports
`Discarded`. -/
theorem C10_witness :
    (∃ tr, Txn.commit (M := Nat) exDb (exOrcTs 7) (exTxn [(42, ⟨some 1, 5⟩)]) =
        .ret (.error (.Database 3),
          { exTxn [(42, ⟨some 1, 5⟩)] with
              reads := [], conflict_keys := none,
              pending_writes := none, duplicate_writes := [] }, tr)) ∧
    Txn.get (M := Nat) exDb exPoisoned 1 = .panic ∧
    Txn.commit (M := Nat) exDb (exOrcTs 7) exPoisoned = .panic ∧
    Txn.modify (M := Nat) exDb exPoisoned ⟨.Insert 1 2, 5⟩ = .panic ∧
    (Error.Database 7 : Error Nat Nat) ≠ .Transaction .Discard :=
  ⟨(C10_poisoned_after_apply_failure (K := Nat) (V := Nat) (D := Nat)
        (M := Nat)).1 exDb (exOrcTs 7) (exTxn [(42, ⟨some 1, 5⟩)])
      [(42, ⟨some 1, 5⟩)] 7 3 rfl rfl (by decide) rfl (by decide) rfl,
   (C10_poisoned_after_apply_failure (K := Nat) (V := Nat) (D := Nat)
        (M := Nat)).2.1 exDb exPoisoned 1 rfl rfl,
   (C10_poisoned_after_apply_failure (K := Nat) (V := Nat) (D := Nat)
        (M := Nat)).2.2.2.2.1 exDb (exOrcTs 7) exPoisoned rfl rfl,
   (C10_poisoned_after_apply_failure (K := Nat) (V := Nat) (D := Nat)
        (M := Nat)).2.2.2.2.2.1 exDb exPoisoned ⟨.Insert 1 2, 5⟩ () rfl rfl rfl
      (by decide) (by decide),
   (C10_poisoned_after_apply_failure (K := Nat) (V := Nat) (D := Nat)
        (M := Nat)).2.2.2.2.2.2 exDb exPoisoned ⟨.Insert 2 2, 99⟩
      (.Database 7) exPoisoned rfl rfl⟩

/-- Version recorded in the buffered half of a split entry. -/
theorem Entry.split_snd_version {K V : Type} (e : Entry K V) :
    e.split.2.version = e.version := by
  cases e with
  | mk data version => cases data <;> rfl

/-- Evaluation of `modify` on a transaction whose overlay is empty, when
validation and the size bounds pass: the entry is buffered, the counters are
bumped, and the conflict-key set gains the key's fingerprint when conflict
detection is enabled. -/
theorem Txn.modify_fresh_eq {K V D M : Type} [DecidableEq K]
    (db : Database K V D) (t : Txn K V) (ent : Entry K V) (u : Unit)
    (hd : t.discarded = false) (hp0 : t.pending_writes = some [])
    (hv : db.validate_entry ent = .ok u)
    (hc : t.count + 1 < db.max_batch_entries)
    (hs : t.size + db.estimate_size ent < db.max_batch_size) :
    Txn.modify (M := M) db t ent =
      .ret (.ok (), { t with
        count := t.count + 1, size := t.size + db.estimate_size ent,
        conflict_keys :=
          match t.conflict_keys with
          | some ck => some (indexSetInsert ck (db.fingerprint ent.key))
          | none => none,
        pending_writes := some [(ent.split.1, ent.split.2)] }) := by
  have hcond : ¬(t.count + 1 ≥ db.max_batch_entries ∨
      t.size + db.estimate_size ent ≥ db.max_batch_size) := by omega
  cases hck : t.conflict_keys <;>
    simp [Txn.modify, Txn.check_and_update_size, hd, hv, hcond, hck, hp0,
      pendingRemoveEntry, pendingInsert]

/-- Evaluation of `modify` on a transaction whose overlay holds exactly one
entry under the same key, when validation and the size bounds pass: the old
entry is removed and preserved in `duplicate_writes` exactly when its version
differs from the new entry's, and the new entry replaces it in the
overlay. -/
theorem Txn.modify_overwrite_eq {K V D M : Type} [DecidableEq K]
    (db : Database K V D) (t : Txn K V) (k : K) (ev : EntryValue V)
    (ent : Entry K V) (u : Unit)
    (hd : t.discarded = false) (hp1 : t.pending_writes = some [(k, ev)])
    (hk : ent.split.1 = k)
    (hv : db.validate_entry ent = .ok u)
    (hc : t.count + 1 < db.max_batch_entries)
    (hs : t.size + db.estimate_size ent < db.max_batch_size) :
    Txn.modify (M := M) db t ent =
      .ret (.ok (), { t with
        count := t.count + 1, size := t.size + db.estimate_size ent,
        conflict_keys :=
          match t.conflict_keys with
          | some ck => some (indexSetInsert ck (db.fingerprint ent.key))
          | none => none,
        duplicate_writes :=
          if ev.version = ent.version then t.duplicate_writes
          else t.duplicate_writes ++ [Entry.unsplit k ev],
        pending_writes := some [(ent.split.1, ent.split.2)] }) := by
  have hcond : ¬(t.count + 1 ≥ db.max_batch_entries ∨
      t.size + db.estimate_size ent ≥ db.max_batch_size) := by omega
  cases hck : t.conflict_keys <;> by_cases hvv : ev.version = ent.version <;>
    simp [Txn.modify, Txn.check_and_update_size, hd, hv, hcond, hck, hp1, hk,
      pendingRemoveEntry, pendingInsert, hvv]

/-- Evaluation of two consecutive `modify` calls on the same key starting
from an empty overlay: both succeed, the overlay ends holding only the second
entry, and the first entry lands in `duplicate_writes` exactly when the two
versions differ. -/
theorem Txn.modify_twice_fresh_eq {K V D M : Type} [DecidableEq K]
    (db : Database K V D) (t : Txn K V) (e1 e2 : Entry K V) (u1 u2 : Unit)
    (hd : t.discarded = false) (hp0 : t.pending_writes = some [])
    (hv1 : db.validate_entry e1 = .ok u1) (hv2 : db.validate_entry e2 = .ok u2)
    (hc1 : t.count + 1 < db.max_batch_entries)
    (hs1 : t.size + db.estimate_size e1 < db.max_batch_size)
    (hc2 : t.count + 2 < db.max_batch_entries)
    (hs2 : t.size + db.estimate_size e1 + db.estimate_size e2 < db.max_batch_size)
    (hk : e2.key = e1.key) :
    ∃ t1 t2, Txn.modify (M := M) db t e1 = .ret (.ok (), t1) ∧
      Txn.modify (M := M) db t1 e2 = .ret (.ok (), t2) ∧
      t2.pending_writes = some [(e2.split.1, e2.split.2)] ∧
      t2.duplicate_writes =
        (if e1.version = e2.version then t.duplicate_writes
         else t.duplicate_writes ++ [e1]) := by
  have h1 := Txn.modify_fresh_eq (M := M) db t e1 u1 hd hp0 hv1 hc1 hs1
  have hkk : e2.split.1 = e1.split.1 := by
    rw [Entry.split_fst, Entry.split_fst, hk]
  have h2 := Txn.modify_overwrite_eq (M := M) db
    { t with
        count := t.count + 1, size := t.size + db.estimate_size e1,
        conflict_keys :=
          match t.conflict_keys with
          | some ck => some (indexSetInsert ck (db.fingerprint e1.key))
          | none => none,
        pending_writes := some [(e1.split.1, e1.split.2)] }
    e1.split.1 e1.split.2 e2 u2 hd rfl hkk hv2 hc2 hs2
  refine ⟨_, _, h1, h2, rfl, ?_⟩
  simp [Entry.split_snd_version, Entry.unsplit_split]

/-- C2: on a successful commit of a non-empty transaction the batch handed to
the storage apply call is the overlay in enumeration order followed by the
`duplicate_writes` entries, every entry stamped with the issued commit
timestamp, and a zero timestamp trips the assertion (panics) instead; in
particular, writing the same key twice at two distinct versions within one
transaction puts both entries in the batch, while writing it twice with the
same version yields exactly one entry. -/
theorem C2_commit_batch {K V D M : Type} [DecidableEq K] :
    (∀ (db : Database K V D)
        (orc : Bool → Nat → List Nat → Option (List Nat) → OracleDecision)
        (t : Txn K V) (pw : PendingMap K V) (cts : Nat) (u : Unit),
        t.discarded = false → t.pending_writes = some pw → pw ≠ [] →
        orc t.done_read t.read_ts t.reads t.conflict_keys = .timestamp cts → cts ≠ 0 →
        db.apply_result (pw.map (fun p => { Entry.unsplit p.1 p.2 with version := cts })
            ++ t.duplicate_writes.map (fun e => { e with version := cts })) = .ok u →
        ∃ t' tr, Txn.commit (M := M) db orc t = .ret (.ok (), t', tr) ∧
          Event.applyCall (pw.map (fun p => { Entry.unsplit p.1 p.2 with version := cts })
            ++ t.duplicate_writes.map (fun e => { e with version := cts })) ∈ tr ∧
          ∀ e' ∈ (pw.map (fun p => { Entry.unsplit p.1 p.2 with version := cts })
            ++ t.duplicate_writes.map (fun e => { e with version := cts })),
            e'.version = cts) ∧
    (∀ (orc : Bool → Nat → List Nat → Option (List Nat) → OracleDecision)
        (t : Txn K V) (pw : PendingMap K V),
        t.pending_writes = some pw →
        orc t.done_read t.read_ts t.reads t.conflict_keys = .timestamp 0 →
        Txn.commit_entries (M := M) orc t = .panic) ∧
    (∀ (db : Database K V D)
        (orc : Bool → Nat → List Nat → Option (List Nat) → OracleDecision)
        (t : Txn K V) (e1 e2 : Entry K V) (cts : Nat) (u1 u2 : Unit),
        t.discarded = false → t.pending_writes = some [] → t.duplicate_writes = [] →
        db.validate_entry e1 = .ok u1 → db.validate_entry e2 = .ok u2 →
        t.count + 1 < db.max_batch_entries →
        t.size + db.estimate_size e1 < db.max_batch_size →
        t.count + 2 < db.max_batch_entries →
        t.size + db.estimate_size e1 + db.estimate_size e2 < db.max_batch_size →
        e2.key = e1.key → e1.version ≠ e2.version →
        (∀ b r rs ck, orc b r rs ck = .timestamp cts) → cts ≠ 0 →
        ∃ t1 t2 t3 tr, Txn.modify (M := M) db t e1 = .ret (.ok (), t1) ∧
          Txn.modify (M := M) db t1 e2 = .ret (.ok (), t2) ∧
          Txn.commit_entries (M := M) orc t2 =
            .ret (.ok (cts, [⟨e2.data, cts⟩, ⟨e1.data, cts⟩]), t3, tr)) ∧
    (∀ (db : Database K V D)
        (orc : Bool → Nat → List Nat → Option (List Nat) → OracleDecision)
        (t : Txn K V) (e1 e2 : Entry K V) (cts : Nat) (u1 u2 : Unit),
        t.discarded = false → t.pending_writes = some [] → t.duplicate_writes = [] →
        db.validate_entry e1 = .ok u1 → db.validate_entry e2 = .ok u2 →
        t.count + 1 < db.max_batch_entries →
        t.size + db.estimate_size e1 < db.max_batch_size →
        t.count + 2 < db.max_batch_entries →
        t.size + db.estimate_size e1 + db.estimate_size e2 < db.max_batch_size →
        e2.key = e1.key → e1.version = e2.version →
        (∀ b r rs ck, orc b r rs ck = .timestamp cts) → cts ≠ 0 →
        ∃ t1 t2 t3 tr, Txn.modify (M := M) db t e1 = .ret (.ok (), t1) ∧
          Txn.modify (M := M) db t1 e2 = .ret (.ok (), t2) ∧
          Txn.commit_entries (M := M) orc t2 =
            .ret (.ok (cts, [⟨e2.data, cts⟩]), t3, tr)) := by
  refine ⟨?_, ?_, ?_, ?_⟩
  · intro db orc t pw cts u hd hp hne horc hcts happ
    have hc := Txn.commit_timestamp_eq (M := M) db orc t pw cts hd hp hne horc hcts
    rw [happ] at hc
    refine ⟨_, _, hc, by simp, ?_⟩
    intro e' he'
    rcases List.mem_append.mp he' with h | h <;>
      · rcases List.mem_map.mp h with ⟨x, -, rfl⟩
        rfl
  · intro orc t pw hp horc0
    exact Txn.commit_entries_zero_eq orc t pw hp horc0
  · intro db orc t e1 e2 cts u1 u2 hd hp0 hdw hv1 hv2 hc1 hs1 hc2 hs2 hk hver horc hcts
    obtain ⟨t1, t2, h1, h2, hpend, hdup⟩ :=
      Txn.modify_twice_fresh_eq (M := M) db t e1 e2 u1 u2 hd hp0 hv1 hv2
        hc1 hs1 hc2 hs2 hk
    rw [hdw, if_neg hver, List.nil_append] at hdup
    have h3 := Txn.commit_entries_timestamp_eq (M := M) orc t2
      [(e2.split.1, e2.split.2)] cts hpend (horc _ _ _ _) hcts
    rw [hdup] at h3
    simp only [List.map_cons, List.map_nil, List.nil_append, List.append_nil,
      List.cons_append, Entry.unsplit_split] at h3
    exact ⟨t1, t2, _, _, h1, h2, h3⟩
  · intro db orc t e1 e2 cts u1 u2 hd hp0 hdw hv1 hv2 hc1 hs1 hc2 hs2 hk hver horc hcts
    obtain ⟨t1, t2, h1, h2, hpend, hdup⟩ :=
      Txn.modify_twice_fresh_eq (M := M) db t e1 e2 u1 u2 hd hp0 hv1 hv2
        hc1 hs1 hc2 hs2 hk
    rw [hdw, if_pos hver] at hdup
    have h3 := Txn.commit_entries_timestamp_eq (M := M) orc t2
      [(e2.split.1, e2.split.2)] cts hpend (horc _ _ _ _) hcts
    rw [hdup] at h3
    simp only [List.map_cons, List.map_nil, List.nil_append, List.append_nil,
      List.cons_append, Entry.unsplit_split] at h3
    exact ⟨t1, t2, _, _, h1, h2, h3⟩

/-- Witness for C2 at concrete inputs: a successful one-entry commit whose
batch carries the commit timestamp 7; a zero-timestamp oracle making
`commit_entries` panic; an insert of key 1 followed by its removal (distinct
versions 5 and 0) producing both entries in the batch; and two same-version
inserts of key 1 producing exactly one. -/
theorem C2_witness :
    (∃ t' tr, Txn.commit (M := Nat) exDb (exOrcTs 7) (exTxn [(1, ⟨some 2, 5⟩)]) =
        .ret (.ok (), t', tr) ∧
      Event.applyCall [⟨.Insert 1 2, 7⟩] ∈ tr ∧
      ∀ e' ∈ ([⟨.Insert 1 2, 7⟩] : List (Entry Nat Nat)), e'.version = 7) ∧
    Txn.commit_entries (M := Nat) (exOrcTs 0) (exTxn [(1, ⟨some 2, 5⟩)]) = .panic ∧
    (∃ t1 t2 t3 tr, Txn.modify (M := Nat) exDb (exTxn []) ⟨.Insert 1 2, 5⟩ =
        .ret (.ok (), t1) ∧
      Txn.modify (M := Nat) exDb t1 ⟨.Remove 1, 0⟩ = .ret (.ok (), t2) ∧
      Txn.commit_entries (M := Nat) (exOrcTs 7) t2 =
        .ret (.ok (7, [⟨.Remove 1, 7⟩, ⟨.Insert 1 2, 7⟩]), t3, tr)) ∧
    (∃ t1 t2 t3 tr, Txn.modify (M := Nat) exDb (exTxn []) ⟨.Insert 1 2, 5⟩ =
        .ret (.ok (), t1) ∧
      Txn.modify (M := Nat) exDb t1 ⟨.Insert 1 3, 5⟩ = .ret (.ok (), t2) ∧
      Txn.commit_entries (M := Nat) (exOrcTs 7) t2 =
        .ret (.ok (7, [⟨.Insert 1 3, 7⟩]), t3, tr)) := by
  refine ⟨?_, ?_, ?_, ?_⟩
  · have h := (C2_commit_batch (K := Nat) (V := Nat) (D := Nat) (M := Nat)).1
      exDb (exOrcTs 7) (exTxn [(1, ⟨some 2, 5⟩)]) [(1, ⟨some 2, 5⟩)] 7 ()
      rfl rfl (by decide) rfl (by decide) rfl
    simpa using h
  · exact (C2_commit_batch (K := Nat) (V := Nat) (D := Nat) (M := Nat)).2.1
      (exOrcTs 0) (exTxn [(1, ⟨some 2, 5⟩)]) [(1, ⟨some 2, 5⟩)] rfl rfl
  · exact (C2_commit_batch (K := Nat) (V := Nat) (D := Nat) (M := Nat)).2.2.1
      exDb (exOrcTs 7) (exTxn []) ⟨.Insert 1 2, 5⟩ ⟨.Remove 1, 0⟩ 7 () ()
      rfl rfl rfl rfl rfl (by decide) (by decide) (by decide) (by decide) rfl
      (by decide) (fun _ _ _ _ => rfl) (by decide)
  · exact (C2_commit_batch (K := Nat) (V := Nat) (D := Nat) (M := Nat)).2.2.2
      exDb (exOrcTs 7) (exTxn []) ⟨.Insert 1 2, 5⟩ ⟨.Insert 1 3, 5⟩ 7 () ()
      rfl rfl rfl rfl rfl (by decide) (by decide) (by decide) (by decide) rfl
      rfl (fun _ _ _ _ => rfl) (by decide)

end SkipDB
